import Mathlib

set_option maxRecDepth 100000

/-!
# Verification of `plot_emissivities` (`src/main.py`)

The script groups the wall boundaries of a loaded CFD case by their radiative
emissivity value, synthesizes solver-side named expressions ("overlay" and
"emiss") from the grouping, and issues one contour-plot call.

This file gives a shallow embedding of the core logic of the script:

* Python floats are modelled as rationals (`ℚ`).  `round(x, 3)` is modelled as
  rounding to the nearest multiple of `1/1000` with ties to the even multiple
  (`pyRoundHalfEven`, `round3`), which is the documented behaviour of the
  Python builtin `round` at 3 decimal places.
* `str(x)` for a float `x` that is a multiple of `1/1000` (the only floats the
  script ever formats: every formatted value has passed through `round(_, 3)`
  or is a widened integer) is modelled by `floatStr`: optional sign, decimal
  digits of the integer part, a dot, and the three fractional digits with
  trailing zeros trimmed down to at least one digit (`str(1.0) = "1.0"`,
  `str(0.85) = "0.85"`, `str(0.8) = "0.8"`).
* The live Fluent session is modelled as an explicit `SolverState` record and
  each phase of the script as a function on it; raised exceptions become
  `Except` errors carrying the state at the point of failure.  Launching the
  solver process and reading the case file (`pyfluent.launch_fluent`,
  `solver.file.read_case`) are external orchestration and are not modelled:
  `visualize_e` starts from the state right after the case has been read.
-/

/-- Little-endian base-10 digits of `n`, with explicit fuel so that the
definition is structurally recursive (and hence evaluable by `decide`).
Agrees with `Nat.digits 10 n` whenever `n ≤ fuel` (`natToDigitsRev_eq_digits`). -/
def natToDigitsRev (fuel : ℕ) (n : ℕ) : List ℕ :=
  match fuel with
  | 0 => []
  | f + 1 => if n = 0 then [] else n % 10 :: natToDigitsRev f (n / 10)

/-- Decimal string of a natural number, as Python prints it (`str(0) = "0"`). -/
def natToStr (n : ℕ) : String :=
  if n = 0 then "0" else ⟨((natToDigitsRev (n + 1) n).map Nat.digitChar).reverse⟩

/-- The fractional digits of `m/1000` (`m < 1000`) as the Python `str` prints
them: three digits with trailing zeros trimmed, keeping at least one digit. -/
def fracDigits (m : ℕ) : String :=
  if m % 10 ≠ 0 then
    ⟨[Nat.digitChar (m / 100), Nat.digitChar (m / 10 % 10), Nat.digitChar (m % 10)]⟩
  else if m % 100 ≠ 0 then
    ⟨[Nat.digitChar (m / 100), Nat.digitChar (m / 10 % 10)]⟩
  else
    ⟨[Nat.digitChar (m / 100)]⟩

/-- `str(m/1000)` for a nonnegative number of thousandths `m`. -/
def pyFloatStrNat (m : ℕ) : String :=
  natToStr (m / 1000) ++ "." ++ fracDigits (m % 1000)

/-- `str(k/1000)` for a signed number of thousandths `k`. -/
def pyFloatStrOfThousandths (k : ℤ) : String :=
  if k < 0 then "-" ++ pyFloatStrNat k.natAbs else pyFloatStrNat k.natAbs

/-- Python `str(q)` for a float `q` that is a multiple of `1/1000`: the number
of thousandths is recovered from the reduced fraction as
`q.num * (1000 / q.den)`.  (For a `q` whose reduced denominator does not
divide `1000` the script never formats `q`, and the value of this function is
irrelevant.) -/
def floatStr (q : ℚ) : String :=
  pyFloatStrOfThousandths (q.num * ((1000 / q.den : ℕ) : ℤ))

/-- The Python call `s.replace(".", "_")` (single-character pattern). -/
def pyReplaceDot (s : String) : String :=
  ⟨s.data.map (fun c => if c = '.' then '_' else c)⟩

/-- `EmissivityManager.name_emiss`:
`return "e__" + str(emiss).replace(".", "_")`. -/
def name_emiss (emiss : ℚ) : String :=
  "e__" ++ pyReplaceDot (floatStr emiss)

/-- Rounding of `q` to the nearest integer, ties to the even integer: the
rounding mode of the Python builtin `round`. -/
def pyRoundHalfEven (q : ℚ) : ℤ :=
  if q - ⌊q⌋ = 1 / 2 then (if ⌊q⌋ % 2 = 0 then ⌊q⌋ else ⌊q⌋ + 1) else round q

/-- Python `round(q, 3)`: the multiple of `1/1000` nearest to `q`, ties to the
even multiple. -/
def round3 (q : ℚ) : ℚ :=
  (pyRoundHalfEven (q * 1000) : ℚ) / 1000

/-- A raw per-wall emissivity setting, as the script receives it from the
solver (the `value` entry of the `in_emiss` dict of `wall_data`): a Python
`int`, `float`, or `str`, or a value of any other type (`other` carries the
Python type name and the textual form of the value, all the error message
needs). -/
inductive EmissIn where
  | int (n : ℤ)
  | float (q : ℚ)
  | str (s : String)
  | other (tyName : String) (valRepr : String)
deriving DecidableEq

/-- The decimal string of an integer, for `EmissIn.pyRepr`. -/
def intToStr (n : ℤ) : String :=
  if n < 0 then "-" ++ natToStr n.natAbs else natToStr n.natAbs

/-- Python `type(x).__name__` for a raw emissivity value. -/
def EmissIn.pyTypeName : EmissIn → String
  | .int _ => "int"
  | .float _ => "float"
  | .str _ => "str"
  | .other tyName _ => tyName

/-- The textual form of a raw emissivity value, as it appears in the
`ValueError` arguments. -/
def EmissIn.pyRepr : EmissIn → String
  | .int n => intToStr n
  | .float q => floatStr q
  | .str s => s
  | .other _ valRepr => valRepr

/-- One wall boundary condition: `in_emiss` is `none` when the wall has no
emissivity setting (`in_emiss` absent from `wall_data`, hence falsy: the wall
does not partake in radiation). -/
structure WallData where
  in_emiss : Option EmissIn
deriving DecidableEq

/-- A solver-side named expression.  `definition` is the formula text set by
`named_expressions[name] = {"definition": ...}`; `value` models the number the
solver reports for it via `get_value()` (the solver-side evaluation of a
definition is outside the model, so expressions written by this script carry
`value = 0`). -/
structure NamedExpr where
  definition : String
  value : ℚ
deriving DecidableEq

/-- One cell register as created by
`solver.tui.solve.cell_registers.add(cr_name, "type", "boundary",
"boundary-list", walls_str)`. -/
structure CellRegister where
  name : String
  wallsStr : String
deriving DecidableEq

/-- The configuration dictionary assigned to
`contour["contour_emissivity"]` in `ContourPlotManager.create_contour_plot`
(the duplicated `size` key in the Python dict literal collapses to one). -/
structure ContourPlot where
  field : String
  filled : Bool
  surfacesList : List String
  coloringOption : String
  nodeValues : Bool
  colorMapSize : ℕ
  colorMapColor : String
  colorMapLogScale : Bool
  colorMapFormat : String
  colorMapLength : ℚ
  colorMapUserSkip : ℕ
deriving DecidableEq

/-- The modelled solver-session state.  `walls` is the insertion-ordered dict
`solver.setup.boundary_conditions.wall()`; `namedExpressions` the dict
`solver.setup.named_expressions`; `cellRegisters` the registers created so
far; `contours` the dict `solver.results.graphics.contour`; `displayed` the
names on which `.display()` has been called; `bcActive` models
`boundary_conditions.is_active()`, `contourActive` models
`results.graphics.contour.is_active()` and `solutionInitialized` whether
`solution.initialization.initialize()` has run. -/
structure SolverState where
  bcActive : Bool
  walls : List (String × WallData)
  namedExpressions : List (String × NamedExpr)
  cellRegisters : List CellRegister
  contours : List (String × ContourPlot)
  displayed : List String
  contourActive : Bool
  solutionInitialized : Bool
deriving DecidableEq

/-- Python-dict lookup on an insertion-ordered association list. -/
def lookupKey {α : Type} (nm : String) : List (String × α) → Option α
  | [] => none
  | (k, v) :: rest => if k = nm then some v else lookupKey nm rest

/-- Python-dict assignment `d[nm] = v` on an insertion-ordered association
list: overwrite in place if the key exists, else append. -/
def setKey {α : Type} (nm : String) (v : α) : List (String × α) → List (String × α)
  | [] => [(nm, v)]
  | (k, w) :: rest => if k = nm then (nm, v) :: rest else (k, w) :: setKey nm v rest

/-- The two exception kinds the script raises itself:
`BoundaryConditionError("Load case file first.")` and
`ValueError("Unsupported emissivity type: ", type(emiss), " value: ", emiss)`
(the latter keeps the name of the offending type and the textual form of the
offending value). -/
inductive RunError where
  | boundaryCondition (msg : String)
  | valueError (tyName : String) (valRepr : String)
deriving DecidableEq

deriving instance DecidableEq for Except

/-- `EmissivityProcessorFactory.create(emiss, solver).process(emiss)`:
dispatch on the shape of the raw value and normalize it.
Floats are rounded to 3 decimals, integers widened exactly, strings resolved
through `solver.setup.named_expressions` (membership is checked by the
factory; `get_value()` is then rounded to 3 decimals); anything else raises
`ValueError`. -/
def processEmiss (s : SolverState) : EmissIn → Except RunError ℚ
  | .float q => .ok (round3 q)
  | .int n => .ok (n : ℚ)
  | .str nm =>
    match lookupKey nm s.namedExpressions with
    | some ne => .ok (round3 ne.value)
    | none => .error (.valueError "str" nm)
  | .other tyName valRepr => .error (.valueError tyName valRepr)

/-- The grouping `e_dict : Dict[float, List[str]]`, insertion-ordered. -/
abbrev EDict := List (ℚ × List String)

/-- `self.e_dict.setdefault(emiss_value, []).append(wall)`. -/
def edictAdd (d : EDict) (v : ℚ) (w : String) : EDict :=
  match d with
  | [] => [(v, [w])]
  | (k, ws) :: rest => if k = v then (k, ws ++ [w]) :: rest else (k, ws) :: edictAdd rest v w

/-- The loop body of `EmissivityManager.collect_emissivities`, folded over the
wall dict: walls without an emissivity setting are skipped, the rest are
normalized and appended to the group of their normalized value. -/
def collectWalls (s : SolverState) : List (String × WallData) → EDict → Except RunError EDict
  | [], d => .ok d
  | (w, wd) :: rest, d =>
    match wd.in_emiss with
    | none => collectWalls s rest d
    | some ev =>
      match processEmiss s ev with
      | .error e => .error e
      | .ok v => collectWalls s rest (edictAdd d v w)

/-- `EmissivityManager.collect_emissivities` (the manager starts with
`e_dict = {}`). -/
def collect_emissivities (s : SolverState) : Except RunError EDict :=
  collectWalls s s.walls []

/-- `collect_emissivities` as a step of the run: it only reads the solver
state, so the state is passed through unchanged; a raised `ValueError`
propagates with the state as it was. -/
def collectEmissStep (s : SolverState) :
    Except (RunError × SolverState) (SolverState × EDict) :=
  match collect_emissivities s with
  | .ok d => .ok (s, d)
  | .error e => .error (e, s)

/-- `EmissivityManager.create_emissivities_cell_registers`: one
`cell_registers.add(name_emiss(e), ..., "(" + " ".join(walls) + ")")` call per
group, in grouping order. -/
def create_emissivities_cell_registers (d : EDict) (s : SolverState) : SolverState :=
  { s with cellRegisters :=
      s.cellRegisters ++
        d.map (fun g => ⟨name_emiss g.1, "(" ++ String.intercalate " " g.2 ++ ")"⟩) }

/-- The `"+".join(overlay_lst)` definition text built by
`EmissivityManager.create_emissivity_expression`. -/
def overlayDef (d : EDict) : String :=
  String.intercalate "+" (d.map fun g => "IF(" ++ name_emiss g.1 ++ ",1,0)")

/-- The `"+".join(def_lst)` definition text built by
`EmissivityManager.create_emissivity_expression`
(`f"IF(AND(overlay<2,{cr_name}),{emiss},0)"`). -/
def emissDef (d : EDict) : String :=
  String.intercalate "+"
    (d.map fun g => "IF(AND(overlay<2," ++ name_emiss g.1 ++ ")," ++ floatStr g.1 ++ ",0)")

/-- `EmissivityManager.create_emissivity_expression`: register the "overlay"
and then the "emiss" named expressions. -/
def create_emissivity_expression (d : EDict) (s : SolverState) : SolverState :=
  { s with namedExpressions :=
      setKey "emiss" ⟨emissDef d, 0⟩ (setKey "overlay" ⟨overlayDef d, 0⟩ s.namedExpressions) }

/-- `ContourPlotManager.create_contour_plot`: create the
`"contour_emissivity"` graphics object over the flattened wall lists of the
grouping and display it. -/
def create_contour_plot (d : EDict) (s : SolverState) : SolverState :=
  { s with
      contours := setKey "contour_emissivity"
        { field := "expr:emiss"
          filled := true
          surfacesList := (d.map Prod.snd).flatten
          coloringOption := "banded"
          nodeValues := false
          colorMapSize := 10
          colorMapColor := "sequential-black-body"
          colorMapLogScale := false
          colorMapFormat := "%0.2f"
          colorMapLength := mkRat 7 10
          colorMapUserSkip := 0 } s.contours
      displayed := s.displayed ++ ["contour_emissivity"] }

/-- `SolverManager.check_BCs`: raise
`BoundaryConditionError("Load case file first.")` when the boundary
conditions are not active. -/
def check_BCs (s : SolverState) : Except (RunError × SolverState) Unit :=
  if s.bcActive then .ok () else .error (.boundaryCondition "Load case file first.", s)

/-- `if not solver_manager.is_initialized(): solver_manager.initialize()`. -/
def initIfNeeded (s : SolverState) : SolverState :=
  if s.contourActive then s else { s with solutionInitialized := true }

/-- The core of `visualize_e`, from the point where the case file has been
read (solver launch and case reading are external orchestration): check the
boundary conditions, initialize if needed, collect the grouping, create the
cell registers, the named expressions, and the contour plot. -/
def visualize_e (s : SolverState) : Except (RunError × SolverState) SolverState :=
  match check_BCs s with
  | .error e => .error e
  | .ok _ =>
    let s1 := initIfNeeded s
    match collectEmissStep s1 with
    | .error e => .error e
    | .ok (s2, d) =>
      .ok (create_contour_plot d (create_emissivity_expression d (create_emissivities_cell_registers d s2)))

/-- The end-to-end scenario state of the spec: walls `A`, `B` with emissivity
`0.8`, wall `C` with emissivity `0.5`, wall `D` without an emissivity setting,
on a freshly loaded case. -/
def scenarioState : SolverState :=
  { bcActive := true
    walls := [("A", ⟨some (.float (0.8 : ℚ))⟩), ("B", ⟨some (.float (0.8 : ℚ))⟩),
              ("C", ⟨some (.float (0.5 : ℚ))⟩), ("D", ⟨none⟩)]
    namedExpressions := []
    cellRegisters := []
    contours := []
    displayed := []
    contourActive := true
    solutionInitialized := true }

/-- Occurrences of the wall name `w` across all group lists of a grouping. -/
def countIn (d : EDict) (w : String) : ℕ :=
  (d.map (fun g => (g.2.filter (fun x => x == w)).length)).sum

/-- Number of entries of the wall dict with key `w` and a defined emissivity
setting. -/
def emissCountKey (ws : List (String × WallData)) (w : String) : ℕ :=
  (ws.filter (fun p => p.1 == w && p.2.in_emiss.isSome)).length

/-- A raw emissivity value the normalization rejects: neither an `int`, nor a
`float`, nor a string naming an expression present in the given
named-expression dict. -/
def unsupportedEmiss (nes : List (String × NamedExpr)) (ev : EmissIn) : Prop :=
  (∀ n : ℤ, ev ≠ .int n) ∧ (∀ q : ℚ, ev ≠ .float q) ∧
    (∀ nm : String, ev = .str nm → lookupKey nm nes = none)

/-- Decimal digit value of a digit character. -/
def charToDigit (c : Char) : ℕ := c.toNat - 48

/-- The natural number denoted by a big-endian list of decimal digit
characters. -/
def charsToNat (cs : List Char) : ℕ := Nat.ofDigits 10 (cs.reverse.map charToDigit)

/-- Split a character list at its first underscore. -/
def splitUnd : List Char → List Char × List Char
  | [] => ([], [])
  | c :: rest =>
    if c = '_' then ([], rest)
    else ((splitUnd rest).1.cons c, (splitUnd rest).2)

/-- The number of thousandths denoted by a trimmed fractional digit string. -/
def fracVal (cs : List Char) : ℕ := charsToNat cs * 10 ^ (3 - cs.length)

/-- Recover the number of thousandths from a group name produced by
`name_emiss` on a nonnegative multiple of `1/1000`: a left inverse used to
prove that the naming is collision-free. -/
def parseName (nm : String) : Option ℕ :=
  match nm.data with
  | 'e' :: '_' :: '_' :: rest =>
    some (charsToNat (splitUnd rest).1 * 1000 + fracVal (splitUnd rest).2)
  | _ => none

/-- A character allowed inside an expression-language identifier. -/
def isIdentChar (c : Char) : Bool := c.isAlpha || c.isDigit || c = '_'

/-- A valid expression-language identifier: nonempty, starts with a letter,
made of letters, digits and underscores. -/
def validIdent (s : String) : Bool :=
  match s.data with
  | [] => false
  | c :: cs => c.isAlpha && (c :: cs).all isIdentChar

/-! ## Rounding lemmas -/

lemma abs_sub_pyRoundHalfEven (q : ℚ) : |q - (pyRoundHalfEven q : ℚ)| ≤ 1 / 2 := by
  unfold pyRoundHalfEven
  split
  case isTrue h =>
    split
    · rw [h, abs_of_nonneg (show (0 : ℚ) ≤ 1 / 2 by norm_num)]
    · rw [show ((⌊q⌋ + 1 : ℤ) : ℚ) = (⌊q⌋ : ℚ) + 1 by push_cast; ring,
        show q - ((⌊q⌋ : ℚ) + 1) = (q - ⌊q⌋) - 1 by ring, h,
        show (1 : ℚ) / 2 - 1 = -(1 / 2) by norm_num, abs_neg,
        abs_of_nonneg (show (0 : ℚ) ≤ 1 / 2 by norm_num)]
  case isFalse h => exact abs_sub_round q

lemma pyRoundHalfEven_intCast (k : ℤ) : pyRoundHalfEven (k : ℚ) = k := by
  unfold pyRoundHalfEven
  rw [Int.floor_intCast]
  norm_num

lemma round3_thousandths (k : ℤ) : round3 ((k : ℚ) / 1000) = (k : ℚ) / 1000 := by
  unfold round3
  rw [div_mul_cancel₀ (b := (1000 : ℚ)) _ (by norm_num), pyRoundHalfEven_intCast]

/-! ## C2, C8, C4: normalization -/

/-- C2: for every float input `x`, normalization returns `round(x, 3)`: the
factory dispatches a float to `FloatEmissivityProcessor`, whose result is
`round3 x`, a multiple of `1/1000` within `1/2000` of `x`. -/
theorem float_normalization_rounds (s : SolverState) (x : ℚ) :
    processEmiss s (.float x) = .ok (round3 x) ∧
    (∃ k : ℤ, round3 x = (k : ℚ) / 1000) ∧
    |x - round3 x| ≤ 1 / 2000 := by
  refine ⟨rfl, ⟨pyRoundHalfEven (x * 1000), rfl⟩, ?_⟩
  have h := abs_sub_pyRoundHalfEven (x * 1000)
  have heq : x - round3 x = (x * 1000 - (pyRoundHalfEven (x * 1000) : ℚ)) / 1000 := by
    unfold round3; ring
  rw [heq, abs_div, abs_of_pos (show (0 : ℚ) < 1000 by norm_num),
    show (1 : ℚ) / 2000 = (1 / 2) / 1000 by norm_num]
  gcongr

/-- C8: normalization is idempotent on its own output: normalizing an
already-rounded float returns it unchanged. -/
theorem float_normalization_idempotent (s : SolverState) (x : ℚ) :
    processEmiss s (.float (round3 x)) = .ok (round3 x) ∧
    round3 (round3 x) = round3 x := by
  have h : round3 (round3 x) = round3 x :=
    round3_thousandths (pyRoundHalfEven (x * 1000))
  exact ⟨by rw [show processEmiss s (.float (round3 x)) = .ok (round3 (round3 x)) from rfl, h], h⟩

/-- C4: a string input naming an existing solver-defined named expression
normalizes to the current numeric value of that expression rounded to 3
decimal places. -/
theorem str_normalization_resolves (s : SolverState) (nm : String) (ne : NamedExpr)
    (h : lookupKey nm s.namedExpressions = some ne) :
    processEmiss s (.str nm) = .ok (round3 ne.value) := by
  simp [processEmiss, h]

/-- The state used by the C4 witness: one pre-existing named expression
`eps` whose current value is `0.8567`. -/
def str4State : SolverState :=
  { bcActive := true
    walls := []
    namedExpressions := [("eps", ⟨"", mkRat 8567 10000⟩)]
    cellRegisters := []
    contours := []
    displayed := []
    contourActive := true
    solutionInitialized := true }

theorem str_normalization_resolves_witness :
    processEmiss str4State (.str "eps") = .ok (round3 (mkRat 8567 10000)) ∧
    round3 (mkRat 8567 10000) = mkRat 857 1000 :=
  ⟨str_normalization_resolves str4State "eps" ⟨"", mkRat 8567 10000⟩ (by decide),
   by with_unfolding_all decide⟩

/-! ## C7: boundary-condition precondition -/

/-- C7: with inactive boundary conditions the run fails immediately with the
"load case first" error and the solver state at the failure is exactly the
input state: nothing has been collected or created. -/
theorem bc_inactive_fails_first (s : SolverState) (h : s.bcActive = false) :
    visualize_e s = .error (.boundaryCondition "Load case file first.", s) := by
  unfold visualize_e check_BCs
  rw [h]
  rfl

/-- The state used by the C7 witness: a case with walls whose boundary
conditions are not active. -/
def bcInactiveState : SolverState :=
  { bcActive := false
    walls := [("A", ⟨some (.float (0.8 : ℚ))⟩)]
    namedExpressions := []
    cellRegisters := []
    contours := []
    displayed := []
    contourActive := false
    solutionInitialized := false }

theorem bc_inactive_fails_first_witness :
    visualize_e bcInactiveState =
      .error (.boundaryCondition "Load case file first.", bcInactiveState) :=
  bc_inactive_fails_first bcInactiveState rfl

/-! ## C9: collecting only reads solver state -/

/-- C9: `collect_emissivities` only reads the solver: as a step of the run it
returns (or, on failure, leaves behind) a state whose boundary conditions,
named expressions, cell registers and graphics objects are those of the input
state, the grouping being the only thing it produces. -/
theorem collect_emissivities_reads_only (s : SolverState) :
    (∀ s' d, collectEmissStep s = .ok (s', d) →
      s'.bcActive = s.bcActive ∧ s'.walls = s.walls ∧
      s'.namedExpressions = s.namedExpressions ∧
      s'.cellRegisters = s.cellRegisters ∧
      s'.contours = s.contours ∧ s'.displayed = s.displayed) ∧
    (∀ e s', collectEmissStep s = .error (e, s') → s' = s) := by
  unfold collectEmissStep
  constructor
  · intro s' d h
    cases hc : collect_emissivities s <;> rw [hc] at h
    · cases h
    · cases h
      exact ⟨rfl, rfl, rfl, rfl, rfl, rfl⟩
  · intro e s' h
    cases hc : collect_emissivities s <;> rw [hc] at h
    · cases h
      rfl
    · cases h

/-- The state used by the C9 witness: one wall with emissivity `0.8`. -/
def collect9State : SolverState :=
  { bcActive := true
    walls := [("A", ⟨some (.float (0.8 : ℚ))⟩)]
    namedExpressions := []
    cellRegisters := []
    contours := []
    displayed := []
    contourActive := true
    solutionInitialized := true }

theorem collect_emissivities_reads_only_witness :
    collect9State.bcActive = collect9State.bcActive ∧
    collect9State.walls = collect9State.walls ∧
    collect9State.namedExpressions = collect9State.namedExpressions ∧
    collect9State.cellRegisters = collect9State.cellRegisters ∧
    collect9State.contours = collect9State.contours ∧
    collect9State.displayed = collect9State.displayed :=
  (collect_emissivities_reads_only collect9State).1 collect9State
    [((0.8 : ℚ), ["A"])] (by with_unfolding_all decide)

/-! ## C5: the grouping is a partition -/

lemma countIn_nil (w : String) : countIn [] w = 0 := rfl

lemma countIn_cons (g : ℚ × List String) (rest : EDict) (w : String) :
    countIn (g :: rest) w = (g.2.filter (fun x => x == w)).length + countIn rest w := by
  simp [countIn]

lemma countIn_edictAdd (d : EDict) (v : ℚ) (w w' : String) :
    countIn (edictAdd d v w) w' = countIn d w' + (if w == w' then 1 else 0) := by
  induction d with
  | nil =>
    cases hbe : (w == w') <;> simp [edictAdd, countIn, List.filter, hbe]
  | cons g rest ih =>
    obtain ⟨k, ws⟩ := g
    unfold edictAdd
    split
    · rw [countIn_cons, countIn_cons]
      simp only [List.filter_append]
      cases hbe : (w == w') <;> · simp [List.filter, hbe]; try omega
    · rw [countIn_cons, countIn_cons, ih]
      omega

lemma emissCountKey_nil (w : String) : emissCountKey [] w = 0 := rfl

lemma emissCountKey_cons (p : String × WallData) (rest : List (String × WallData))
    (w : String) :
    emissCountKey (p :: rest) w =
      (if (p.1 == w && p.2.in_emiss.isSome) = true then 1 else 0) + emissCountKey rest w := by
  simp only [emissCountKey, List.filter_cons]
  split <;> simp [Nat.add_comm]

lemma collectWalls_ok_countIn (s : SolverState) (ws : List (String × WallData))
    (d d' : EDict) (h : collectWalls s ws d = .ok d') (w : String) :
    countIn d' w = countIn d w + emissCountKey ws w := by
  induction ws generalizing d with
  | nil =>
    cases h
    simp [emissCountKey_nil]
  | cons p rest ih =>
    obtain ⟨w1, wd1⟩ := p
    rw [emissCountKey_cons]
    cases hin : wd1.in_emiss with
    | none =>
      simp only [collectWalls, hin] at h
      rw [ih d h]
      simp [hin]
    | some ev =>
      cases hp : processEmiss s ev with
      | error e =>
        simp only [collectWalls, hin, hp] at h
        exact Except.noConfusion h
      | ok v =>
        simp only [collectWalls, hin, hp] at h
        rw [ih (edictAdd d v w1) h, countIn_edictAdd]
        simp only [hin, Option.isSome_some, Bool.and_true]
        cases hbe : (w1 == w) <;> · simp [hbe]; try omega

lemma emissCountKey_zero (ws : List (String × WallData)) (w : String)
    (h : w ∉ ws.map Prod.fst) : emissCountKey ws w = 0 := by
  induction ws with
  | nil => rfl
  | cons p rest ih =>
    simp only [List.map_cons, List.mem_cons, not_or] at h
    rw [emissCountKey_cons, ih h.2]
    have hbe : (p.1 == w) = false := by
      cases hb : (p.1 == w)
      · rfl
      · exact absurd (beq_iff_eq.mp hb).symm h.1
    simp [hbe]

lemma emissCountKey_mem (ws : List (String × WallData)) (w : String) (wd : WallData)
    (hnd : (ws.map Prod.fst).Nodup) (hmem : (w, wd) ∈ ws) :
    emissCountKey ws w = if wd.in_emiss.isSome then 1 else 0 := by
  induction ws with
  | nil => cases hmem
  | cons p rest ih =>
    obtain ⟨w1, wd1⟩ := p
    rw [List.map_cons, List.nodup_cons] at hnd
    rw [emissCountKey_cons]
    rcases List.mem_cons.mp hmem with heq | htail
    · obtain ⟨rfl, rfl⟩ := Prod.mk.injEq .. ▸ heq
      rw [emissCountKey_zero rest w hnd.1]
      cases hin : wd.in_emiss.isSome <;> simp [hin]
    · have hw1 : w1 ≠ w := by
        intro he
        subst he
        exact hnd.1 (List.mem_map.mpr ⟨(w1, wd), htail, rfl⟩)
      have hbe : (w1 == w) = false := by
        cases hb : (w1 == w)
        · rfl
        · exact absurd (beq_iff_eq.mp hb) hw1
      rw [ih hnd.2 htail]
      simp [hbe]

/-- C5: when collection succeeds on a wall dict (whose keys, being dict keys,
are distinct), the grouping is a partition of the walls with a defined
emissivity setting: a wall with one appears exactly once across all group
lists, a wall without one appears in none. -/
theorem grouping_is_partition (s : SolverState) (d : EDict)
    (hok : collect_emissivities s = .ok d)
    (hnd : (s.walls.map Prod.fst).Nodup)
    (w : String) (wd : WallData) (hmem : (w, wd) ∈ s.walls) :
    countIn d w = if wd.in_emiss.isSome then 1 else 0 := by
  have h := collectWalls_ok_countIn s s.walls [] d hok w
  rw [h, emissCountKey_mem s.walls w wd hnd hmem]
  simp [countIn]

theorem grouping_is_partition_witness :
    countIn [((0.8 : ℚ), ["A", "B"]), ((0.5 : ℚ), ["C"])] "A" =
      if (WallData.mk (some (.float (0.8 : ℚ)))).in_emiss.isSome then 1 else 0 :=
  grouping_is_partition scenarioState [((0.8 : ℚ), ["A", "B"]), ((0.5 : ℚ), ["C"])]
    (by with_unfolding_all decide) (by decide) "A" ⟨some (.float (0.8 : ℚ))⟩
    (by with_unfolding_all decide)

/-! ## C3: unsupported emissivity values are rejected before anything is created -/

lemma processEmiss_unsupported (s : SolverState) (ev : EmissIn)
    (h : unsupportedEmiss s.namedExpressions ev) :
    processEmiss s ev = .error (.valueError ev.pyTypeName ev.pyRepr) := by
  cases ev with
  | int n => exact absurd rfl (h.1 n)
  | float q => exact absurd rfl (h.2.1 q)
  | str nm =>
    have hnone := h.2.2 nm rfl
    simp [processEmiss, hnone, EmissIn.pyTypeName, EmissIn.pyRepr]
  | other tyName valRepr => rfl

lemma collectWalls_err_shape (s : SolverState) (ws : List (String × WallData))
    (d : EDict) (e : RunError) (h : collectWalls s ws d = .error e) :
    ∃ ty v, e = .valueError ty v := by
  induction ws generalizing d with
  | nil => cases h
  | cons p rest ih =>
    obtain ⟨w1, wd1⟩ := p
    cases hin : wd1.in_emiss with
    | none =>
      simp only [collectWalls, hin] at h
      exact ih d h
    | some ev =>
      cases hp : processEmiss s ev with
      | error e' =>
        simp only [collectWalls, hin, hp] at h
        cases h
        cases ev with
        | int n => exact Except.noConfusion hp
        | float q => exact Except.noConfusion hp
        | str nm =>
          simp only [processEmiss] at hp
          rcases hl : lookupKey nm s.namedExpressions with _ | ne <;> rw [hl] at hp
          · cases hp
            exact ⟨"str", nm, rfl⟩
          · cases hp
        | other ty v => cases hp; exact ⟨ty, v, rfl⟩
      | ok v =>
        simp only [collectWalls, hin, hp] at h
        exact ih (edictAdd d v w1) h

lemma collectWalls_fails (s : SolverState) (ev : EmissIn)
    (hbad : unsupportedEmiss s.namedExpressions ev) :
    ∀ ws d (w : String) (wd : WallData), (w, wd) ∈ ws → wd.in_emiss = some ev →
      ∃ e, collectWalls s ws d = .error e := by
  intro ws
  induction ws with
  | nil => intro d w wd hmem; cases hmem
  | cons p rest ih =>
    intro d w wd hmem hsome
    obtain ⟨w1, wd1⟩ := p
    cases hin : wd1.in_emiss with
    | none =>
      rcases List.mem_cons.mp hmem with heq | htail
      · obtain ⟨rfl, rfl⟩ := Prod.mk.injEq .. ▸ heq
        rw [hsome] at hin
        cases hin
      · obtain ⟨e, he⟩ := ih d w wd htail hsome
        exact ⟨e, by simp only [collectWalls, hin]; exact he⟩
    | some ev1 =>
      cases hp : processEmiss s ev1 with
      | error e => exact ⟨e, by simp only [collectWalls, hin, hp]⟩
      | ok v =>
        rcases List.mem_cons.mp hmem with heq | htail
        · obtain ⟨rfl, rfl⟩ := Prod.mk.injEq .. ▸ heq
          rw [hsome] at hin
          cases hin
          rw [processEmiss_unsupported s ev hbad] at hp
          exact Except.noConfusion hp
        · obtain ⟨e, he⟩ := ih (edictAdd d v w1) w wd htail hsome
          exact ⟨e, by simp only [collectWalls, hin, hp]; exact he⟩

lemma initIfNeeded_fields (s : SolverState) :
    (initIfNeeded s).bcActive = s.bcActive ∧
    (initIfNeeded s).walls = s.walls ∧
    (initIfNeeded s).namedExpressions = s.namedExpressions ∧
    (initIfNeeded s).cellRegisters = s.cellRegisters ∧
    (initIfNeeded s).contours = s.contours ∧
    (initIfNeeded s).displayed = s.displayed := by
  unfold initIfNeeded
  split <;> exact ⟨rfl, rfl, rfl, rfl, rfl, rfl⟩

/-- C3: a raw emissivity value that is neither an `int`, nor a `float`, nor a
string naming an existing named expression makes normalization fail with a
`ValueError` naming the offending type and value; in the run, any wall
carrying such a value makes collection fail with such an error before any
cell register, named expression or plot has been created. -/
theorem unsupported_value_rejected (s : SolverState) (ev : EmissIn)
    (hbad : unsupportedEmiss s.namedExpressions ev) :
    processEmiss s ev = .error (.valueError ev.pyTypeName ev.pyRepr) ∧
    (s.bcActive = true → ∀ (w : String) (wd : WallData), (w, wd) ∈ s.walls →
      wd.in_emiss = some ev →
      ∃ ty v s', visualize_e s = .error (.valueError ty v, s') ∧
        s'.cellRegisters = s.cellRegisters ∧
        s'.namedExpressions = s.namedExpressions ∧
        s'.contours = s.contours ∧ s'.displayed = s.displayed) := by
  refine ⟨processEmiss_unsupported s ev hbad, ?_⟩
  intro hbc w wd hmem hsome
  obtain ⟨hf1, hf2, hf3, hf4, hf5, hf6⟩ := initIfNeeded_fields s
  have hbad1 : unsupportedEmiss (initIfNeeded s).namedExpressions ev := by
    rw [hf3]; exact hbad
  have hproc1 :
      ∀ ev', processEmiss (initIfNeeded s) ev' = processEmiss s ev' := by
    intro ev'
    unfold processEmiss
    rw [hf3]
  obtain ⟨e, he⟩ :=
    collectWalls_fails (initIfNeeded s) ev hbad1 (initIfNeeded s).walls []
      w wd (by rw [hf2]; exact hmem) hsome
  obtain ⟨ty, v, rfl⟩ :=
    collectWalls_err_shape (initIfNeeded s) (initIfNeeded s).walls [] e he
  refine ⟨ty, v, initIfNeeded s, ?_, hf4, hf3, hf5, hf6⟩
  unfold visualize_e check_BCs
  rw [hbc]
  simp only [collectEmissStep, collect_emissivities, he]
  simp

/-- The state used by the C3 witness: wall `W` carries the string `"missing"`,
which names no existing named expression. -/
def badValueState : SolverState :=
  { bcActive := true
    walls := [("W", ⟨some (.str "missing")⟩)]
    namedExpressions := []
    cellRegisters := []
    contours := []
    displayed := []
    contourActive := true
    solutionInitialized := true }

theorem unsupported_value_rejected_witness :
    ∃ ty v s', visualize_e badValueState = .error (.valueError ty v, s') ∧
      s'.cellRegisters = badValueState.cellRegisters ∧
      s'.namedExpressions = badValueState.namedExpressions ∧
      s'.contours = badValueState.contours ∧ s'.displayed = badValueState.displayed :=
  (unsupported_value_rejected badValueState (.str "missing")
      ⟨fun _ h => EmissIn.noConfusion h, fun _ h => EmissIn.noConfusion h,
       fun nm h => by cases h; rfl⟩).2
    rfl "W" ⟨some (.str "missing")⟩ (List.mem_singleton.mpr rfl) rfl

/-! ## C10: the run on an empty grouping -/

lemma lookupKey_setKey_self {α : Type} (nm : String) (v : α) (l : List (String × α)) :
    lookupKey nm (setKey nm v l) = some v := by
  induction l with
  | nil => simp [lookupKey, setKey]
  | cons p rest ih =>
    obtain ⟨k, w⟩ := p
    unfold setKey
    split
    · simp [lookupKey]
    · unfold lookupKey
      split
      · simp_all
      · exact ih

lemma lookupKey_setKey_ne {α : Type} (nm nm' : String) (hne : nm' ≠ nm) (v : α)
    (l : List (String × α)) :
    lookupKey nm (setKey nm' v l) = lookupKey nm l := by
  induction l with
  | nil => simp [lookupKey, setKey, hne]
  | cons p rest ih =>
    obtain ⟨k, w⟩ := p
    unfold setKey
    split
    · unfold lookupKey
      simp_all
    · unfold lookupKey
      split <;> simp_all

lemma collectWalls_all_none (s : SolverState) (ws : List (String × WallData))
    (d : EDict) (h : ∀ (w : String) (wd : WallData), (w, wd) ∈ ws → wd.in_emiss = none) :
    collectWalls s ws d = .ok d := by
  induction ws with
  | nil => rfl
  | cons p rest ih =>
    obtain ⟨w1, wd1⟩ := p
    have h1 : wd1.in_emiss = none := h w1 wd1 (List.mem_cons_self _ _)
    simp only [collectWalls, h1]
    exact ih (fun w wd hm => h w wd (List.mem_cons_of_mem _ hm))

/-- C10: when no wall has an emissivity setting, the run still registers the
"overlay" and "emiss" named expressions, each with an empty definition,
creates no cell register, and creates and displays the contour plot with an
empty surfaces list. -/
theorem empty_grouping_still_registers (s : SolverState)
    (hbc : s.bcActive = true)
    (hnone : ∀ (w : String) (wd : WallData), (w, wd) ∈ s.walls → wd.in_emiss = none) :
    ∃ s', visualize_e s = .ok s' ∧
      (lookupKey "overlay" s'.namedExpressions).map NamedExpr.definition = some "" ∧
      (lookupKey "emiss" s'.namedExpressions).map NamedExpr.definition = some "" ∧
      s'.cellRegisters = s.cellRegisters ∧
      (lookupKey "contour_emissivity" s'.contours).map ContourPlot.surfacesList =
        some [] ∧
      s'.displayed = s.displayed ++ ["contour_emissivity"] := by
  obtain ⟨hf1, hf2, hf3, hf4, hf5, hf6⟩ := initIfNeeded_fields s
  have hcol : collect_emissivities (initIfNeeded s) = .ok [] :=
    collectWalls_all_none _ _ _ (fun w wd hm => hnone w wd (by rw [hf2] at hm; exact hm))
  have hrun : visualize_e s = .ok (create_contour_plot []
      (create_emissivity_expression []
        (create_emissivities_cell_registers [] (initIfNeeded s)))) := by
    unfold visualize_e check_BCs
    rw [hbc]
    simp only [collectEmissStep, hcol]
    simp
  refine ⟨_, hrun, ?_, ?_, ?_, ?_, ?_⟩
  · rw [show (create_contour_plot []
        (create_emissivity_expression [] (create_emissivities_cell_registers []
          (initIfNeeded s)))).namedExpressions =
        setKey "emiss" ⟨emissDef [], 0⟩
          (setKey "overlay" ⟨overlayDef [], 0⟩ (initIfNeeded s).namedExpressions)
        from rfl]
    rw [lookupKey_setKey_ne _ _ (by decide) _, lookupKey_setKey_self]
    rfl
  · rw [show (create_contour_plot []
        (create_emissivity_expression [] (create_emissivities_cell_registers []
          (initIfNeeded s)))).namedExpressions =
        setKey "emiss" ⟨emissDef [], 0⟩
          (setKey "overlay" ⟨overlayDef [], 0⟩ (initIfNeeded s).namedExpressions)
        from rfl]
    rw [lookupKey_setKey_self]
    rfl
  · rw [show (create_contour_plot []
        (create_emissivity_expression [] (create_emissivities_cell_registers []
          (initIfNeeded s)))).cellRegisters =
        (initIfNeeded s).cellRegisters ++ [] from rfl]
    rw [List.append_nil]
    exact hf4
  · rw [show (create_contour_plot []
        (create_emissivity_expression [] (create_emissivities_cell_registers []
          (initIfNeeded s)))).contours =
        setKey "contour_emissivity" _ (initIfNeeded s).contours from rfl]
    rw [lookupKey_setKey_self]
    rfl
  · rw [show (create_contour_plot []
        (create_emissivity_expression [] (create_emissivities_cell_registers []
          (initIfNeeded s)))).displayed =
        (initIfNeeded s).displayed ++ ["contour_emissivity"] from rfl]
    rw [hf6]

/-- The state used by the C10 witness: one wall, without emissivity. -/
def noEmissState : SolverState :=
  { bcActive := true
    walls := [("D", ⟨none⟩)]
    namedExpressions := []
    cellRegisters := []
    contours := []
    displayed := []
    contourActive := true
    solutionInitialized := true }

theorem empty_grouping_still_registers_witness :
    ∃ s', visualize_e noEmissState = .ok s' ∧
      (lookupKey "overlay" s'.namedExpressions).map NamedExpr.definition = some "" ∧
      (lookupKey "emiss" s'.namedExpressions).map NamedExpr.definition = some "" ∧
      s'.cellRegisters = noEmissState.cellRegisters ∧
      (lookupKey "contour_emissivity" s'.contours).map ContourPlot.surfacesList =
        some [] ∧
      s'.displayed = noEmissState.displayed ++ ["contour_emissivity"] :=
  empty_grouping_still_registers noEmissState rfl
    (fun w wd hm => by
      rcases List.mem_singleton.mp hm with h
      cases h
      rfl)

/-! ## C1: the end-to-end scenario -/

/-- C1: on the scenario state (walls `A`, `B` at `0.8`, `C` at `0.5`, `D`
without emissivity) the run groups `{0.8: [A, B], 0.5: [C]}`, creates exactly
the two cell registers `e__0_8` over `(A B)` and `e__0_5` over `(C)`,
registers "overlay" and "emiss" with the expected definitions, and creates
the contour plot over the surfaces `[A, B, C]`, excluding `D`. -/
theorem end_to_end_scenario :
    collect_emissivities scenarioState =
      .ok [((0.8 : ℚ), ["A", "B"]), ((0.5 : ℚ), ["C"])] ∧
    ∃ s', visualize_e scenarioState = .ok s' ∧
      s'.cellRegisters = [⟨"e__0_8", "(A B)"⟩, ⟨"e__0_5", "(C)"⟩] ∧
      (lookupKey "overlay" s'.namedExpressions).map NamedExpr.definition =
        some "IF(e__0_8,1,0)+IF(e__0_5,1,0)" ∧
      (lookupKey "emiss" s'.namedExpressions).map NamedExpr.definition =
        some "IF(AND(overlay<2,e__0_8),0.8,0)+IF(AND(overlay<2,e__0_5),0.5,0)" ∧
      (lookupKey "contour_emissivity" s'.contours).map ContourPlot.surfacesList =
        some ["A", "B", "C"] := by
  refine ⟨by with_unfolding_all decide, _, rfl, ?_, ?_, ?_, ?_⟩ <;> with_unfolding_all decide

/-! ## C6: group naming is deterministic, collision-free and identifier-shaped -/

lemma natToDigitsRev_eq_digits : ∀ (fuel n : ℕ), n ≤ fuel →
    natToDigitsRev fuel n = Nat.digits 10 n := by
  intro fuel
  induction fuel with
  | zero =>
    intro n hn
    interval_cases n
    simp [natToDigitsRev]
  | succ f ih =>
    intro n hn
    unfold natToDigitsRev
    split
    case isTrue h0 => simp [h0]
    case isFalse h0 =>
      rw [Nat.digits_def' (show (1 : ℕ) < 10 by norm_num) (Nat.pos_of_ne_zero h0)]
      congr 1
      refine ih (n / 10) ?_
      have := Nat.div_lt_self (Nat.pos_of_ne_zero h0) (show (1 : ℕ) < 10 by norm_num)
      omega

lemma digitChar_isDigit : ∀ d : ℕ, d < 10 → (Nat.digitChar d).isDigit = true := by decide

lemma charToDigit_digitChar : ∀ d : ℕ, d < 10 → charToDigit (Nat.digitChar d) = d := by decide

lemma natToStr_digits (n : ℕ) : ∀ c ∈ (natToStr n).data, c.isDigit = true := by
  unfold natToStr
  split
  · intro c hc
    rcases List.mem_singleton.mp hc with rfl
    decide
  · intro c hc
    rw [natToDigitsRev_eq_digits (n + 1) n (by omega)] at hc
    rw [List.mem_reverse] at hc
    obtain ⟨d, hd, rfl⟩ := List.mem_map.mp hc
    exact digitChar_isDigit d (Nat.digits_lt_base (by norm_num) hd)

lemma charsToNat_natToStr (n : ℕ) : charsToNat (natToStr n).data = n := by
  unfold natToStr
  split
  case isTrue h0 => rw [h0]; decide
  case isFalse h0 =>
    show charsToNat (((natToDigitsRev (n + 1) n).map Nat.digitChar).reverse) = n
    rw [natToDigitsRev_eq_digits (n + 1) n (by omega)]
    unfold charsToNat
    rw [List.reverse_reverse, List.map_map]
    rw [show (charToDigit ∘ Nat.digitChar) = fun d => charToDigit (Nat.digitChar d) from rfl]
    rw [List.map_congr_left
      (fun d hd => charToDigit_digitChar d (Nat.digits_lt_base (by norm_num) hd))]
    rw [show (fun d : ℕ => d) = id from rfl, List.map_id]
    exact Nat.ofDigits_digits 10 n

lemma fracVal_fracDigits : ∀ m : ℕ, m < 1000 → fracVal (fracDigits m).data = m := by decide

lemma fracDigits_all_digits : ∀ m : ℕ, m < 1000 →
    ((fracDigits m).data.all Char.isDigit) = true := by decide

lemma splitUnd_append (I F : List Char) (h : '_' ∉ I) :
    splitUnd (I ++ '_' :: F) = (I, F) := by
  induction I with
  | nil => simp [splitUnd]
  | cons c rest ih =>
    have hc : ¬(c = '_') := fun he => h (he ▸ List.mem_cons_self c rest)
    show splitUnd (c :: (rest ++ '_' :: F)) = (c :: rest, F)
    unfold splitUnd
    rw [if_neg hc, ih (fun hm => h (List.mem_cons_of_mem c hm))]

lemma thousandths_num (k : ℕ) :
    ((k : ℚ) / 1000).num * ((1000 / ((k : ℚ) / 1000).den : ℕ) : ℤ) = (k : ℤ) := by
  set q : ℚ := (k : ℚ) / 1000 with hq
  have hden0 : (q.den : ℚ) ≠ 0 := Nat.cast_ne_zero.mpr q.den_nz
  have hq1000 : q * 1000 = (k : ℚ) := by
    rw [hq, div_mul_cancel₀ _ (show (1000 : ℚ) ≠ 0 by norm_num)]
  have hnum : (q.num : ℚ) = q * (q.den : ℚ) := by
    calc (q.num : ℚ) = (q.num : ℚ) / (q.den : ℚ) * (q.den : ℚ) := by
          rw [div_mul_cancel₀ _ hden0]
      _ = q * (q.den : ℚ) := by rw [Rat.num_div_den q]
  have key : q.num * 1000 = (k : ℤ) * q.den := by
    have h1 : (q.num : ℚ) * 1000 = (k : ℚ) * (q.den : ℚ) := by
      rw [hnum, mul_comm q _, mul_assoc, hq1000]
      ring
    exact_mod_cast h1
  have hdvd : (q.den : ℤ) ∣ q.num * 1000 := ⟨(k : ℤ), by rw [key]; ring⟩
  have hdvdNat : q.den ∣ q.num.natAbs * 1000 := by
    have h2 := Int.natAbs_dvd_natAbs.mpr hdvd
    rwa [Int.natAbs_ofNat, Int.natAbs_mul,
      show ((1000 : ℤ)).natAbs = 1000 from rfl] at h2
  have hdvd1000 : q.den ∣ 1000 :=
    Nat.Coprime.dvd_of_dvd_mul_left q.reduced.symm hdvdNat
  have hcancel : (1000 / q.den) * q.den = 1000 := Nat.div_mul_cancel hdvd1000
  have hdenZ : (q.den : ℤ) ≠ 0 := Int.natCast_ne_zero.mpr q.den_nz
  refine mul_right_cancel₀ hdenZ ?_
  calc q.num * ((1000 / q.den : ℕ) : ℤ) * (q.den : ℤ)
      = q.num * (((1000 / q.den) * q.den : ℕ) : ℤ) := by push_cast; ring
    _ = q.num * 1000 := by rw [hcancel]; norm_num
    _ = (k : ℤ) * q.den := key

lemma floatStr_natCast_div (k : ℕ) :
    floatStr ((k : ℚ) / 1000) = natToStr (k / 1000) ++ "." ++ fracDigits (k % 1000) := by
  unfold floatStr
  rw [thousandths_num k]
  unfold pyFloatStrOfThousandths
  rw [if_neg (not_lt.mpr (Int.natCast_nonneg k)), Int.natAbs_ofNat]
  rfl

lemma string_data_append (a b : String) : (a ++ b).data = a.data ++ b.data := rfl

lemma name_emiss_data (k : ℕ) :
    (name_emiss ((k : ℚ) / 1000)).data =
      'e' :: '_' :: '_' ::
        ((natToStr (k / 1000)).data ++ '_' :: (fracDigits (k % 1000)).data) := by
  unfold name_emiss
  rw [floatStr_natCast_div k]
  have hrepl : ∀ (cs : List Char), (∀ c ∈ cs, c.isDigit = true) →
      cs.map (fun c => if c = '.' then '_' else c) = cs := by
    intro cs hdig
    rw [List.map_congr_left (fun c hc => ?_), List.map_id]
    have : ¬(c = '.') := fun he => by
      rw [he] at hc
      exact absurd (hdig '.' hc) (by decide)
    simp [this]
  show ('e' :: '_' :: '_' ::
      ((natToStr (k / 1000) ++ "." ++ fracDigits (k % 1000)).data.map
        (fun c => if c = '.' then '_' else c))) = _
  rw [string_data_append, string_data_append]
  rw [show ("." : String).data = ['.'] from rfl]
  rw [List.append_assoc, List.map_append]
  rw [hrepl _ (natToStr_digits (k / 1000))]
  rw [show (['.'] ++ (fracDigits (k % 1000)).data).map (fun c => if c = '.' then '_' else c) =
      '_' :: (fracDigits (k % 1000)).data.map (fun c => if c = '.' then '_' else c) by simp]
  rw [hrepl _ (fun c hc => List.all_eq_true.mp
    (fracDigits_all_digits (k % 1000) (Nat.mod_lt k (by norm_num))) c hc)]

lemma natToStr_no_underscore (n : ℕ) : '_' ∉ (natToStr n).data :=
  fun hmem => absurd (natToStr_digits n '_' hmem) (by decide)

lemma parseName_name_emiss (k : ℕ) :
    parseName (name_emiss ((k : ℚ) / 1000)) = some k := by
  unfold parseName
  simp only [name_emiss_data k]
  rw [splitUnd_append _ _ (natToStr_no_underscore (k / 1000))]
  rw [charsToNat_natToStr]
  rw [show ((natToStr (k / 1000)).data, (fracDigits (k % 1000)).data).2 =
      (fracDigits (k % 1000)).data from rfl]
  rw [fracVal_fracDigits (k % 1000) (Nat.mod_lt k (by norm_num))]
  congr 1
  omega

lemma isIdentChar_of_isDigit (c : Char) (h : c.isDigit = true) : isIdentChar c = true := by
  unfold isIdentChar
  rw [h]
  simp

/-- C6: `name_emiss` is a deterministic function of the rounded value alone;
on rounded values (nonnegative multiples of `1/1000`) it is injective, and
its output is a valid expression-language identifier (a letter followed by
letters, digits and underscores). -/
theorem name_emiss_injective_identifier (q₁ q₂ : ℚ)
    (h₁ : ∃ k : ℕ, q₁ = (k : ℚ) / 1000) (h₂ : ∃ k : ℕ, q₂ = (k : ℚ) / 1000) :
    (name_emiss q₁ = name_emiss q₂ ↔ q₁ = q₂) ∧ validIdent (name_emiss q₁) = true := by
  obtain ⟨k₁, rfl⟩ := h₁
  obtain ⟨k₂, rfl⟩ := h₂
  constructor
  · constructor
    · intro he
      have hp := parseName_name_emiss k₁
      rw [he, parseName_name_emiss k₂] at hp
      cases hp
      rfl
    · intro he
      rw [he]
  · unfold validIdent
    simp only [name_emiss_data k₁]
    rw [show ('e'.isAlpha && ('e' :: '_' :: '_' ::
        ((natToStr (k₁ / 1000)).data ++ '_' :: (fracDigits (k₁ % 1000)).data)).all
          isIdentChar) =
      (('e' :: '_' :: '_' ::
        ((natToStr (k₁ / 1000)).data ++ '_' :: (fracDigits (k₁ % 1000)).data)).all
          isIdentChar) by simp [Char.isAlpha]]
    rw [List.all_cons, List.all_cons, List.all_cons, List.all_append, List.all_cons]
    rw [List.all_eq_true.mpr
      (fun c hc => isIdentChar_of_isDigit c (natToStr_digits (k₁ / 1000) c hc))]
    rw [List.all_eq_true.mpr (fun c hc => isIdentChar_of_isDigit c
      (List.all_eq_true.mp (fracDigits_all_digits (k₁ % 1000) (Nat.mod_lt k₁ (by norm_num)))
        c hc))]
    decide

theorem name_emiss_injective_identifier_witness :
    ((name_emiss (0.8 : ℚ) = name_emiss (0.85 : ℚ) ↔ (0.8 : ℚ) = 0.85) ∧
      validIdent (name_emiss (0.8 : ℚ)) = true) ∧
    name_emiss (0.8 : ℚ) = "e__0_8" ∧ name_emiss (0.85 : ℚ) = "e__0_85" :=
  ⟨name_emiss_injective_identifier 0.8 0.85
      ⟨800, by with_unfolding_all decide⟩ ⟨850, by with_unfolding_all decide⟩,
   by with_unfolding_all decide, by with_unfolding_all decide⟩
